import Mathlib

/-!
Verification of the All-Tickers bulk-classification pipeline against its
specification.  The JavaScript sources are shallowly embedded: pure
functions become Lean functions, SQL tables become lists of rows,
fallible operations return `Except`, and the batch runner's main loop
becomes a fold of a step function over the index range it walks.
-/

set_option maxRecDepth 4000

/-! ## Symbol Enumerator (src/Slow-Search.js, src/unnamed/part_009) -/

/-- The alphabet string `letters` used by every generator variant. -/
def letters : String := "ABCDEFGHIJKLMNOPQRSTUVWXYZ"

/-- JavaScript `letters[n]` — string indexing into the alphabet. -/
def letterAt (n : Nat) : Char := letters.data.getD n 'A'

/-- Numeric value of an alphabet character (inverse of `letterAt`). -/
def charVal (c : Char) : Nat := c.toNat - 65

/-- Function `generateTicker` from src/Slow-Search.js lines 33-64: four explicit
length bands, each band decoded by base-26 division, out-of-range
indices give the empty string. -/
def generateTicker (index : Nat) : String :=
  if index < 26 then
    String.mk [letterAt index]
  else if index < 26 + 676 then
    let adjusted := index - 26
    String.mk [letterAt (adjusted / 26), letterAt (adjusted % 26)]
  else if index < 26 + 676 + 17576 then
    let adjusted := index - 26 - 676
    String.mk [letterAt (adjusted / 676), letterAt ((adjusted % 676) / 26),
      letterAt (adjusted % 26)]
  else if index < 26 + 676 + 17576 + 456976 then
    let adjusted := index - 26 - 676 - 17576
    String.mk [letterAt (adjusted / 17576), letterAt ((adjusted % 17576) / 676),
      letterAt ((adjusted % 676) / 26), letterAt (adjusted % 26)]
  else
    ""

/-- The digit-building loop of `generateTicker` in src/unnamed/part_009
lines 318-323: `len` iterations of prepending `letters[remaining % 26]`
and dividing `remaining` by 26. -/
def buildTicker : Nat → Nat → List Char
  | 0, _ => []
  | len + 1, remaining => buildTicker len (remaining / 26) ++ [letterAt (remaining % 26)]

/-- Function `generateTicker` from src/unnamed/part_009 lines 310-330: walk the
length bands 1..4 subtracting `26^len` until the remainder fits, then
build that many base-26 digits; out of range gives the empty string. -/
def generateTicker9 (index : Nat) : String :=
  if index < 26 then String.mk (buildTicker 1 index)
  else
    let r2 := index - 26
    if r2 < 676 then String.mk (buildTicker 2 r2)
    else
      let r3 := r2 - 676
      if r3 < 17576 then String.mk (buildTicker 3 r3)
      else
        let r4 := r3 - 17576
        if r4 < 456976 then String.mk (buildTicker 4 r4)
        else ""

/-- The plain base-26 do-while `generateTicker` of the FIRST script in
src/unnamed/part_009 (lines 18-29): prepend `letters[num % 26]` and
divide by 26 while the quotient is positive, with no length-band
offsets.  The loop runs at most `num` iterations (the quotient strictly
decreases), so it is embedded structurally with `num` itself as fuel. -/
def legacyLoop : Nat → Nat → List Char
  | 0, num => [letterAt (num % 26)]
  | fuel + 1, num =>
    if num / 26 > 0 then legacyLoop fuel (num / 26) ++ [letterAt (num % 26)]
    else [letterAt (num % 26)]

/-- The legacy enumerator itself: `generateTicker` from
src/unnamed/part_009 lines 18-29. -/
def generateTickerLegacy (index : Nat) : String := String.mk (legacyLoop index index)

/-- Function `calculateTotalTickers` from src/Slow-Search.js lines 67-77 (identical
in src/unnamed/part_009): 26 + 26^2 + 26^3 + 26^4, plus 26^5 when the
five-letter flag is set. -/
def calculateTotalTickers (includeFiveLetter : Bool) : Nat :=
  let total := 26 + 26 * 26 + 26 * 26 * 26 + 26 * 26 * 26 * 26
  if includeFiveLetter then total + 26 * 26 * 26 * 26 * 26 else total

/-- Modelled from the spec: `offset(L) = Σ_{l=1}^{L-1} 26^l`, the
cumulative size of all lengths shorter than `L`. -/
def offsetOfLength (L : Nat) : Nat :=
  ((List.range (L - 1)).map (fun l => 26 ^ (l + 1))).sum

/-- Modelled from the spec: `indexOf(symbol)`, the inverse of the
enumerator (no inverse exists in the source; the spec declares it as the
optional inverse contract).  The symbol's letters are read as a base-26
number and offset by the cumulative size of all shorter lengths. -/
def indexOf (s : String) : Nat :=
  offsetOfLength s.data.length +
    (s.data.map charVal).foldl (fun acc d => acc * 26 + d) 0

/-- Modelled from the spec: `symbolAt` failing with `OutOfRange` for an
index beyond the domain bound (the error taxonomy of spec section 7);
used only to contrast with the code's empty-string sentinel. -/
def symbolAtSpec (i : Nat) : Except String String :=
  if i < calculateTotalTickers false then .ok (generateTicker i) else .error "OutOfRange"


/-! ## Remote Validator (src/Slow-Search.js checkTicker, src/index-db.js
validateTicker).  Provider responses are embedded as explicit option
records; a thrown JavaScript error is the `Except.error` side.  Market
prices are only ever null-checked or truthiness-checked by this code, so
they are modelled as integers. -/

/-- JavaScript `haystack.includes(needle)` — case-sensitive substring test. -/
def strIncludes (hay needle : String) : Bool :=
  (List.range (hay.data.length + 1)).any
    (fun k => ((hay.data.drop k).take needle.data.length) == needle.data)

/-- JavaScript `a || b` for an optional string `a`: an absent or empty
string is falsy and falls through to `b`. -/
def jsOrStr (a : Option String) (b : String) : String :=
  match a with
  | some s => if s = "" then b else s
  | none => b

/-- JavaScript truthiness of an optional string (`quote?.symbol`). -/
def jsTruthyStr (a : Option String) : Bool :=
  match a with
  | some s => !(s == "")
  | none => false

/-- JavaScript truthiness of an optional number (`!quote.regularMarketPrice`):
absent, null and zero are falsy. -/
def jsTruthyNum (a : Option Int) : Bool :=
  match a with
  | some v => !(v == 0)
  | none => false

/-- A parsed yahoo-finance2 quote response, fields as probed by the code. -/
structure Quote where
  symbol : Option String
  fullExchangeName : Option String
  exchange : Option String
  regularMarketPrice : Option Int
  currency : Option String
deriving DecidableEq, Repr

/-- An error thrown by the quote call, as inspected by the catch blocks. -/
structure YahooError where
  message : String
deriving DecidableEq, Repr

/-- The object returned by `validateTicker` in src/validate-active.js;
fields a branch does not set are `undefined`, embedded as `none`. -/
structure VAResult where
  status : String
  exchange : Option String
  price : Option Int
deriving DecidableEq, Repr

/-- The object returned by `checkTicker` in src/Slow-Search.js; fields that
a branch does not set are `undefined`, embedded as `none`. -/
structure CheckResult where
  isActive : Bool
  symbol : Option String
  price : Option Int
  currency : Option String
  exchange : Option String
deriving DecidableEq, Repr

/-- Embeds `const exch = quote.fullExchangeName || quote.exchange || ""` from
src/Slow-Search.js line 127. -/
def exchOf (q : Quote) : String := jsOrStr q.fullExchangeName (jsOrStr q.exchange "")

/-- Embeds `exch.includes("NYSE") || exch.includes("Nasdaq") || exch.includes("AMEX")`
from src/Slow-Search.js line 128 — case-sensitive substring matches. -/
def isUS (exch : String) : Bool :=
  strIncludes exch "NYSE" || strIncludes exch "Nasdaq" || strIncludes exch "AMEX"

/-- Lower-casing of a string, character by character. -/
def lowerStr (s : String) : String := String.mk (s.data.map Char.toLower)

/-- Modelled from the spec: the recognized-exchange test as the spec states
it, a case-insensitive substring match against "NYSE", "Nasdaq", "AMEX";
defined only to compare with the source's `isUS`. -/
def recognizedExchangeCI (exch : String) : Bool :=
  strIncludes (lowerStr exch) (lowerStr "NYSE") ||
  strIncludes (lowerStr exch) (lowerStr "Nasdaq") ||
  strIncludes (lowerStr exch) (lowerStr "AMEX")

/-- Function `checkTicker` from src/Slow-Search.js lines 122-164, as a function of
the provider call's outcome.  A thrown error lands in the catch block,
which returns `{isActive:false}` whether or not the message marks a Yahoo
schema-validation failure. -/
def checkTicker (resp : Except YahooError Quote) : CheckResult :=
  match resp with
  | .ok quote =>
    if jsTruthyStr quote.symbol then
      let exch := exchOf quote
      if isUS exch && quote.regularMarketPrice.isSome then
        { isActive := true, symbol := quote.symbol, price := quote.regularMarketPrice,
          currency := some (jsOrStr quote.currency "USD"), exchange := some exch }
      else if isUS exch then
        { isActive := false, symbol := quote.symbol, price := none,
          currency := some (jsOrStr quote.currency "USD"), exchange := some exch }
      else
        { isActive := false, symbol := none, price := none, currency := none,
          exchange := some exch }
    else
      { isActive := false, symbol := none, price := none, currency := none, exchange := none }
  | .error e =>
    if strIncludes e.message "Expected union value" ||
        strIncludes e.message "Failed Yahoo Schema validation" then
      { isActive := false, symbol := none, price := none, currency := none, exchange := none }
    else
      { isActive := false, symbol := none, price := none, currency := none, exchange := none }

/-- Function `validateTicker` from src/validate-active.js lines 73-98: a
truthy symbol on a recognized exchange is returned as active with the
quote's price passed through unchecked (a null price still yields
active); anything else is invalid, except a schema-validation error,
which is delisted. -/
def validateTicker_va (resp : Except YahooError Quote) : VAResult :=
  match resp with
  | .ok quote =>
    if jsTruthyStr quote.symbol then
      let exch := exchOf quote
      if isUS exch then
        { status := "active", exchange := some exch, price := quote.regularMarketPrice }
      else
        { status := "invalid", exchange := none, price := none }
    else
      { status := "invalid", exchange := none, price := none }
  | .error e =>
    if strIncludes e.message "Expected union value" ||
        strIncludes e.message "Failed Yahoo Schema validation" then
      { status := "delisted", exchange := none, price := none }
    else
      { status := "invalid", exchange := none, price := none }

/-- The quote object probed by `validateTicker` in src/index-db.js. -/
structure IdbQuote where
  regularMarketPrice : Option Int
  exchange : Option String
deriving DecidableEq, Repr

/-- An error thrown by the quote call in src/index-db.js, as inspected by
its catch block (`error.name`, `error.exchange`). -/
structure JsError where
  name : String
  exchange : Option String
deriving DecidableEq, Repr

/-- The verdict object returned by `validateTicker` in src/index-db.js. -/
structure VRow where
  status : String
  ticker : String
  price : Option Int
  exchange : Option String
deriving DecidableEq, Repr

/-- Function `validateTicker` from src/index-db.js lines 68-88.  A missing or
price-less quote is delisted; a thrown `FailedYahooValidationError` is
delisted with the error's exchange; ANY other thrown error — network
failure, timeout, non-2xx status — is returned as
`{status:"delisted", exchange:'ERROR'}`. -/
def validateTicker_idb (ticker : String) (resp : Except JsError (Option IdbQuote)) : VRow :=
  match resp with
  | .ok q =>
    match q with
    | none => { status := "delisted", ticker := ticker, price := none, exchange := none }
    | some quote =>
      if jsTruthyNum quote.regularMarketPrice then
        { status := "active", ticker := ticker, price := quote.regularMarketPrice,
          exchange := some (jsOrStr quote.exchange "UNKNOWN") }
      else
        { status := "delisted", ticker := ticker, price := none, exchange := none }
  | .error e =>
    if e.name = "FailedYahooValidationError" then
      { status := "delisted", ticker := ticker, price := none,
        exchange := some (jsOrStr e.exchange "UNKNOWN") }
    else
      { status := "delisted", ticker := ticker, price := none, exchange := some "ERROR" }

/-! ## Classification Ledger (src/ticker-database.js).  The sqlite table
`tickers` is embedded as a list of rows; the `CHECK (status IN
('active','delisted'))` constraint makes the write operations fallible. -/

/-- One row of the `tickers` table (src/ticker-database.js lines 21-32).
Timestamp columns are not modelled; no claim concerns them. -/
structure LedgerRow where
  symbol : String
  status : String
  price : Option Int
  currency : Option String
  exchange : Option String
deriving DecidableEq, Repr

/-- The `details` argument of `upsertTicker`: destructured as
`const { price, currency = 'USD', exchange } = details`, so an absent
price or exchange binds null and an absent currency binds "USD". -/
structure Details where
  price : Option Int := none
  currency : String := "USD"
  exchange : Option String := none
deriving DecidableEq, Repr

/-- Method `upsertTicker` from src/ticker-database.js lines 43-58: INSERT with
`ON CONFLICT(symbol) DO UPDATE SET` every data column to the excluded
values.  The CHECK constraint on `status` rejects any value other than
'active' or 'delisted'. -/
def upsertTicker (t : List LedgerRow) (symbol status : String) (d : Details) :
    Except String (List LedgerRow) :=
  let row : LedgerRow :=
    { symbol := symbol, status := status, price := d.price,
      currency := some d.currency, exchange := d.exchange }
  if status = "active" ∨ status = "delisted" then
    .ok (if t.any (fun r => r.symbol == symbol) then
      t.map (fun r => if r.symbol = symbol then row else r)
    else
      t ++ [row])
  else
    .error "CHECK constraint failed: status"

/-- Method `getTickerDetails` from src/ticker-database.js lines 72-76:
`SELECT * FROM tickers WHERE symbol = ?` via `db.get` (first match). -/
def getTickerDetails (t : List LedgerRow) (symbol : String) : Option LedgerRow :=
  t.find? (fun r => r.symbol == symbol)

/-- Method `moveTickerToStatus` from src/ticker-database.js lines 79-89: UPDATE
of status, price, exchange for an existing symbol (currency untouched);
the CHECK constraint applies to the updated status. -/
def moveTickerToStatus (t : List LedgerRow) (symbol newStatus : String) (d : Details) :
    Except String (List LedgerRow) :=
  if newStatus = "active" ∨ newStatus = "delisted" then
    .ok (t.map (fun r => if r.symbol = symbol then
      { r with status := newStatus, price := d.price, exchange := d.exchange } else r))
  else
    .error "CHECK constraint failed: status"

/-- The mutation operations the code performs on the `tickers` table. -/
inductive LedgerOp where
  | upsert (symbol status : String) (d : Details)
  | move (symbol status : String) (d : Details)
deriving DecidableEq, Repr

/-- Apply one mutation; a storage error is logged and the table is left
unchanged (spec section 7: ledger-write failures skip and continue). -/
def applyLedgerOp (t : List LedgerRow) (op : LedgerOp) : List LedgerRow :=
  match op with
  | .upsert s st d => match upsertTicker t s st d with | .ok t' => t' | .error _ => t
  | .move s st d => match moveTickerToStatus t s st d with | .ok t' => t' | .error _ => t

/-- Method `getTickersByStatus` from src/ticker-database.js lines 61-69:
symbols of the rows with the given status, ordered by symbol. -/
def getTickersByStatus (t : List LedgerRow) (status : String) : List String :=
  ((t.filter (fun r => r.status == status)).map (fun r => r.symbol)).mergeSort (· ≤ ·)

/-- The row returned by `getStats` in src/ticker-database.js lines 189-199:
COUNT(*), SUM(status='active'), SUM(status='delisted').  These are the
only columns the query selects. -/
structure Stats where
  total : Nat
  active : Nat
  delisted : Nat
deriving DecidableEq, Repr

/-- Method `getStats` from src/ticker-database.js lines 189-199. -/
def getStats (t : List LedgerRow) : Stats :=
  { total := t.length,
    active := (t.filter (fun r => r.status == "active")).length,
    delisted := (t.filter (fun r => r.status == "delisted")).length }

/-- JavaScript property access on the stats row: reading a key the query
did not produce yields `undefined` (`none`). -/
def statsField (st : Stats) (key : String) : Option Nat :=
  if key = "total" then some st.total
  else if key = "active" then some st.active
  else if key = "delisted" then some st.delisted
  else none

/-- Method `bulkInsertTickers` from src/bulk-ticker-generator.js lines 61-101:
for each generated ticker, skip it if `getTickerDetails` finds a row,
otherwise `upsertTicker(ticker, 'delisted', {price: null, exchange: null,
generated: true})` (the extra `generated` key is dropped by the
destructuring in `upsertTicker`). -/
def bulkInsertStep (t : List LedgerRow) (tk : String) : List LedgerRow :=
  match getTickerDetails t tk with
  | some _ => t
  | none => applyLedgerOp t (.upsert tk "delisted" { price := none, exchange := none })

/-- The full bulk-insert loop over the generated ticker list. -/
def bulkInsertTickers (tickers : List String) (t : List LedgerRow) : List LedgerRow :=
  tickers.foldl bulkInsertStep t

/-- The ledger write the src/index-db.js runner performs for one verdict
(lines 157-174): active verdicts upsert status/price/exchange, everything
else upserts 'delisted' with the verdict's exchange. -/
def recordVerdict (t : List LedgerRow) (r : VRow) : Except String (List LedgerRow) :=
  if r.status = "active" then
    upsertTicker t r.ticker "active" { price := r.price, exchange := r.exchange }
  else
    upsertTicker t r.ticker "delisted" { exchange := r.exchange }

/-- The four-symbol end-to-end scenario of spec section 8: the Runner
records A and B active (NASDAQ $100, NYSE $55) and C and D delisted,
through the real `upsertTicker` path. -/
def scenarioOps : List LedgerOp :=
  [.upsert "A" "active" { price := some 100, exchange := some "NASDAQ" },
   .upsert "B" "active" { price := some 55, exchange := some "NYSE" },
   .upsert "C" "delisted" {},
   .upsert "D" "delisted" {}]

/-- The ledger after the four-symbol scenario run. -/
def scenarioTable : List LedgerRow := scenarioOps.foldl applyLedgerOp []

/-! ## The bulk validator's database (src/unnamed/part_005, part_013):
a `tickers` table keyed by `ticker` with an integer `active` flag and a
`price` column where NULL means never validated and -1 marks a checked
but inactive ticker. -/

/-- One row of the bulk validator's `tickers` table. -/
structure FastRow where
  ticker : String
  active : Int
  price : Option Int
  exchange : Option String
deriving DecidableEq, Repr

/-- Method `getUnvalidatedTickers` from src/unnamed/part_005 lines 394-410:
`SELECT ticker FROM tickers WHERE active = 0 AND price IS NULL`. -/
def getUnvalidatedTickers (t : List FastRow) : List String :=
  (t.filter (fun r => r.active == 0 && r.price == none)).map (fun r => r.ticker)

/-- The stats row of `getStats` in src/unnamed/part_005 lines 549-569:
total, active_count, inactive_count (active = 0 AND price = -1),
unvalidated_count (price IS NULL), validated_count (price IS NOT NULL). -/
structure FastStats where
  total : Nat
  active_count : Nat
  inactive_count : Nat
  unvalidated_count : Nat
  validated_count : Nat
deriving DecidableEq, Repr

/-- Method `getStats` from src/unnamed/part_005 lines 549-569. -/
def getStatsFast (t : List FastRow) : FastStats :=
  { total := t.length,
    active_count := (t.filter (fun r => r.active == 1)).length,
    inactive_count := (t.filter (fun r => r.active == 0 && r.price == some (-1))).length,
    unvalidated_count := (t.filter (fun r => r.price == none)).length,
    validated_count := (t.filter (fun r => !(r.price == none))).length }

/-- The bulk validator's table after the four-symbol scenario: A and B
validated active with real prices, C and D checked and found inactive
(`validateTickerFast` writes `price = -1, exchange = 'INACTIVE'`). -/
def scenarioFastTable : List FastRow :=
  [{ ticker := "A", active := 1, price := some 100, exchange := some "NASDAQ" },
   { ticker := "B", active := 1, price := some 55, exchange := some "NYSE" },
   { ticker := "C", active := 0, price := some (-1), exchange := some "INACTIVE" },
   { ticker := "D", active := 0, price := some (-1), exchange := some "INACTIVE" }]

/-! ## Batch Runner / Checkpoint Controller (src/unnamed/part_009 main,
lines 507-668; src/Slow-Search.js main shares the same resume and skip
logic).  The external provider is an oracle `behav symbol attempt`
giving the outcome of the `attempt`-th `checkTicker` call inside one
retry loop: `some r` when the call returned `r`, `none` when it threw a
non-schema (transport-level) error.  The runner state carries the two
verdict lists, the counters, a log of the symbols actually sent to the
validator, and the pause events the escalation branch performs. -/

/-- The checkpoint record (src/unnamed/part_009 lines 60-69). -/
structure Checkpoint where
  currentIndex : Nat
  total : Nat
  processed : Nat
  activeTickers : Nat
  delistedTickers : Nat
deriving DecidableEq, Repr

/-- Embeds `checkpoint.processed / checkpoint.total >= 1.0` of line 526-527 with
JavaScript float division: NaN when 0/0 (compares false), Infinity when
positive/0 (compares true), ordinary comparison otherwise. -/
def actualProgressGE1 (cp : Checkpoint) : Bool :=
  if cp.total = 0 then decide (0 < cp.processed) else decide (cp.total ≤ cp.processed)

/-- The resume logic of `main` (src/unnamed/part_009 lines 516-547):
no checkpoint starts fresh at 0; a checkpoint that walked the whole
domain returns without work (`none`); an over-large index restarts at 0
relying on the skip check; otherwise resume at `checkpoint.currentIndex`. -/
def resumeStart (cpOpt : Option Checkpoint) (totalTickers : Nat) : Option Nat :=
  match cpOpt with
  | none => some 0
  | some cp =>
    if actualProgressGE1 cp && decide (totalTickers ≤ cp.currentIndex) then none
    else if totalTickers ≤ cp.currentIndex then some 0
    else some cp.currentIndex

/-- One consecutive-error escalation: the code saves data and checkpoint
at the current index, sleeps 60000 ms, and replays the previous ten
indices (lines 592-631). -/
structure PauseEvent where
  atIndex : Nat
  checkpointIndex : Nat
  waitMs : Nat
deriving DecidableEq, Repr

/-- The mutable state of the part_009 main loop, plus the observation
logs (validation calls issued, pause events) the claims are about. -/
structure R9State where
  activeTickers : List String
  delistedTickers : List String
  processed : Nat
  consecutiveErrors : Nat
  validationCalls : List String
  pauseEvents : List PauseEvent
deriving DecidableEq, Repr

/-- Embeds `activeTickers.includes(ticker) || delistedTickers.includes(ticker)` —
the ledger-dedup check of lines 560 and 601. -/
def recordedIn (s : R9State) (t : String) : Prop :=
  t ∈ s.activeTickers ∨ t ∈ s.delistedTickers

instance (s : R9State) (t : String) : Decidable (recordedIn s t) :=
  inferInstanceAs (Decidable (_ ∨ _))

/-- The `while (attempt < maxRetries)` loop of lines 567-580: up to three
`checkTicker` calls, stopping at the first one that returns. -/
def retryCheck (behav : String → Nat → Option CheckResult) (t : String) :
    Option CheckResult :=
  match behav t 0 with
  | some r => some r
  | none =>
    match behav t 1 with
    | some r => some r
    | none => behav t 2

/-- The index interval `[lo, lo+n)` walked by a `for` loop. -/
def idxRange : Nat → Nat → List Nat
  | _, 0 => []
  | lo, n + 1 => lo :: idxRange (lo + 1) n

/-- One iteration of the replay loop (lines 599-629): skip recorded
symbols, otherwise retry-validate and push the verdict; a symbol whose
calls all threw is left unrecorded (`processed` is never incremented in
the replay loop). -/
def replayStep (behav : String → Nat → Option CheckResult) (s : R9State) (j : Nat) :
    R9State :=
  let t := generateTicker9 j
  if recordedIn s t then s
  else
    let s1 := { s with validationCalls := s.validationCalls ++ [t] }
    match retryCheck behav t with
    | some r =>
      if r.isActive then { s1 with activeTickers := s1.activeTickers ++ [t] }
      else { s1 with delistedTickers := s1.delistedTickers ++ [t] }
    | none => s1

/-- The replay of the previous ten indices, `retryStart = max(i-10, 0)`
up to `i-1` (lines 598-629); `Nat` subtraction is that max. -/
def replayRange (behav : String → Nat → Option CheckResult) (s : R9State) (lo hi : Nat) :
    R9State :=
  (idxRange lo (hi - lo)).foldl (replayStep behav) s

/-- One iteration of the main loop (lines 557-657): skip recorded symbols
without touching `processed`; on a returned verdict push it, increment
`processed`, reset the consecutive-error count; on an exhausted retry
loop count a consecutive error, and at the tenth save state, pause 60 s,
replay the previous ten indices, and reset the count. -/
def stepIndex (behav : String → Nat → Option CheckResult) (s : R9State) (i : Nat) :
    R9State :=
  let t := generateTicker9 i
  if recordedIn s t then s
  else
    let s1 := { s with validationCalls := s.validationCalls ++ [t] }
    match retryCheck behav t with
    | some r =>
      let s2 :=
        if r.isActive then { s1 with activeTickers := s1.activeTickers ++ [t] }
        else { s1 with delistedTickers := s1.delistedTickers ++ [t] }
      { s2 with processed := s2.processed + 1, consecutiveErrors := 0 }
    | none =>
      let c := s1.consecutiveErrors + 1
      if 10 ≤ c then
        let s2 := { s1 with pauseEvents := s1.pauseEvents ++
          [{ atIndex := i, checkpointIndex := i, waitMs := 60000 }] }
        let s3 := replayRange behav s2 (i - 10) i
        { s3 with consecutiveErrors := 0 }
      else
        { s1 with consecutiveErrors := c }

/-- The main loop `for (let i = startIndex; i < totalTickers; i++)`. -/
def run9 (behav : String → Nat → Option CheckResult) (startIndex total : Nat)
    (init : R9State) : R9State :=
  (idxRange startIndex (total - startIndex)).foldl (stepIndex behav) init

/-- Invariant of the `tickers` table: the CHECK constraint admits only
the two statuses. -/
def validStatuses (t : List LedgerRow) : Prop :=
  ∀ r ∈ t, r.status = "active" ∨ r.status = "delisted"

/-- A quote response whose exchange is spelled in upper case: recognized
by the spec's case-insensitive match, rejected by the code's
case-sensitive `includes`. -/
def cexQuote : Quote :=
  { symbol := some "TEST", fullExchangeName := some "NASDAQ", exchange := none,
    regularMarketPrice := some 100, currency := some "USD" }

/-- A concrete provider oracle for exercising the escalation path: the
symbols at indices 1..10 ("B".."K") always throw at the transport level,
every other symbol returns a non-active verdict. -/
def escalationBehav : String → Nat → Option CheckResult :=
  fun t _ =>
    if t ∈ ["B", "C", "D", "E", "F", "G", "H", "I", "J", "K"] then none
    else some (CheckResult.mk false none none none none)

-- ===== THEOREMS AND LEMMAS =====


lemma charVal_letterAt : ∀ n, n < 26 → charVal (letterAt n) = n := by decide

lemma offsetOfLength_one : offsetOfLength 1 = 0 := by decide

lemma offsetOfLength_two : offsetOfLength 2 = 26 := by decide

lemma offsetOfLength_three : offsetOfLength 3 = 702 := by decide

lemma offsetOfLength_four : offsetOfLength 4 = 18278 := by decide

lemma indexOf_letters_one {a : Nat} (ha : a < 26) :
    indexOf (String.mk [letterAt a]) = a := by
  simp [indexOf, offsetOfLength_one, charVal_letterAt _ ha]

lemma indexOf_letters_two {a b : Nat} (ha : a < 26) (hb : b < 26) :
    indexOf (String.mk [letterAt a, letterAt b]) = 26 + (a * 26 + b) := by
  simp only [indexOf, List.map, List.foldl, List.length_cons, List.length_nil,
    charVal_letterAt _ ha, charVal_letterAt _ hb]
  rw [show (0:Nat) + 1 + 1 = 2 from rfl, offsetOfLength_two]
  ring

lemma indexOf_letters_three {a b c : Nat} (ha : a < 26) (hb : b < 26) (hc : c < 26) :
    indexOf (String.mk [letterAt a, letterAt b, letterAt c]) =
      702 + ((a * 26 + b) * 26 + c) := by
  simp only [indexOf, List.map, List.foldl, List.length_cons, List.length_nil,
    charVal_letterAt _ ha, charVal_letterAt _ hb, charVal_letterAt _ hc]
  rw [show (0:Nat) + 1 + 1 + 1 = 3 from rfl, offsetOfLength_three]
  ring

lemma indexOf_letters_four {a b c d : Nat} (ha : a < 26) (hb : b < 26) (hc : c < 26)
    (hd : d < 26) :
    indexOf (String.mk [letterAt a, letterAt b, letterAt c, letterAt d]) =
      18278 + (((a * 26 + b) * 26 + c) * 26 + d) := by
  simp only [indexOf, List.map, List.foldl, List.length_cons, List.length_nil,
    charVal_letterAt _ ha, charVal_letterAt _ hb, charVal_letterAt _ hc,
    charVal_letterAt _ hd]
  rw [show (0:Nat) + 1 + 1 + 1 + 1 = 4 from rfl, offsetOfLength_four]
  ring

lemma indexOf_generateTicker {i : Nat} (h : i < 475254) :
    indexOf (generateTicker i) = i := by
  unfold generateTicker
  by_cases h1 : i < 26
  · rw [if_pos h1, indexOf_letters_one h1]
  · rw [if_neg h1]
    by_cases h2 : i < 26 + 676
    · rw [if_pos h2, indexOf_letters_two (by omega) (by omega)]
      omega
    · rw [if_neg h2]
      by_cases h3 : i < 26 + 676 + 17576
      · rw [if_pos h3, indexOf_letters_three (by omega) (by omega) (by omega)]
        omega
      · rw [if_neg h3, if_pos (show i < 26 + 676 + 17576 + 456976 by omega),
          indexOf_letters_four (by omega) (by omega) (by omega) (by omega)]
        omega

lemma generateTicker_inj {i j : Nat} (hi : i < 475254) (hj : j < 475254)
    (h : generateTicker i = generateTicker j) : i = j := by
  rw [← indexOf_generateTicker hi, ← indexOf_generateTicker hj, h]

lemma generateTicker9_eq (i : Nat) : generateTicker9 i = generateTicker i := by
  unfold generateTicker9 generateTicker
  by_cases h1 : i < 26
  · rw [if_pos h1, if_pos h1]
    simp [buildTicker, Nat.mod_eq_of_lt h1]
  · rw [if_neg h1, if_neg h1]
    by_cases h2 : i - 26 < 676
    · rw [if_pos h2, if_pos (show i < 26 + 676 by omega)]
      have e1 : (i - 26) / 26 % 26 = (i - 26) / 26 := Nat.mod_eq_of_lt (by omega)
      simp [buildTicker, e1]
    · rw [if_neg h2, if_neg (show ¬ i < 26 + 676 by omega)]
      by_cases h3 : i - 26 - 676 < 17576
      · rw [if_pos h3, if_pos (show i < 26 + 676 + 17576 by omega)]
        have e1 : (i - 26 - 676) / 26 / 26 % 26 = (i - 26 - 676) / 676 := by omega
        have e2 : (i - 26 - 676) / 26 % 26 = (i - 26 - 676) % 676 / 26 := by omega
        simp [buildTicker, e1, e2]
      · rw [if_neg h3, if_neg (show ¬ i < 26 + 676 + 17576 by omega)]
        by_cases h4 : i - 26 - 676 - 17576 < 456976
        · rw [if_pos h4, if_pos (show i < 26 + 676 + 17576 + 456976 by omega)]
          have e1 : (i - 26 - 676 - 17576) / 26 / 26 / 26 % 26 =
              (i - 26 - 676 - 17576) / 17576 := by omega
          have e2 : (i - 26 - 676 - 17576) / 26 / 26 % 26 =
              (i - 26 - 676 - 17576) % 17576 / 676 := by omega
          have e3 : (i - 26 - 676 - 17576) / 26 % 26 =
              (i - 26 - 676 - 17576) % 676 / 26 := by omega
          simp [buildTicker, e1, e2, e3]
        · rw [if_neg h4, if_neg (show ¬ i < 26 + 676 + 17576 + 456976 by omega)]

lemma generateTicker9_inj {i j : Nat} (hi : i < 475254) (hj : j < 475254)
    (h : generateTicker9 i = generateTicker9 j) : i = j := by
  rw [generateTicker9_eq, generateTicker9_eq] at h
  exact generateTicker_inj hi hj h

lemma mem_idxRange {m lo n : Nat} : m ∈ idxRange lo n ↔ lo ≤ m ∧ m < lo + n := by
  induction n generalizing lo with
  | zero => simp [idxRange]
  | succ n ih =>
    simp only [idxRange, List.mem_cons, ih]
    omega

lemma idxRange_append (lo a b : Nat) :
    idxRange lo (a + b) = idxRange lo a ++ idxRange (lo + a) b := by
  induction a generalizing lo with
  | zero => simp [idxRange]
  | succ a ih =>
    have : a + 1 + b = (a + b) + 1 := by omega
    rw [this]
    simp only [idxRange, List.cons_append, ih (lo + 1)]
    have : lo + 1 + a = lo + (a + 1) := by omega
    rw [this]

lemma recordedIn_congr {s s' : R9State} (ha : s.activeTickers = s'.activeTickers)
    (hd : s.delistedTickers = s'.delistedTickers) (u : String) :
    recordedIn s u ↔ recordedIn s' u := by
  simp [recordedIn, ha, hd]

lemma stepIndex_skip {behav s i} (h : recordedIn s (generateTicker9 i)) :
    stepIndex behav s i = s := by
  simp [stepIndex, h]

lemma replayStep_skip {behav s j} (h : recordedIn s (generateTicker9 j)) :
    replayStep behav s j = s := by
  simp [replayStep, h]

lemma replayStep_const (behav : String → Nat → Option CheckResult) (s : R9State) (j : Nat) :
    (replayStep behav s j).processed = s.processed ∧
    (replayStep behav s j).consecutiveErrors = s.consecutiveErrors ∧
    (replayStep behav s j).pauseEvents = s.pauseEvents := by
  unfold replayStep
  by_cases h : recordedIn s (generateTicker9 j)
  · simp [h]
  · simp only [if_neg h]
    cases hr : retryCheck behav (generateTicker9 j) with
    | none => simp
    | some r => by_cases hA : r.isActive = true <;> simp [hA]

lemma replayStep_noop {behav : String → Nat → Option CheckResult} {s : R9State} {j : Nat}
    (h : recordedIn s (generateTicker9 j) ∨ retryCheck behav (generateTicker9 j) = none) :
    (replayStep behav s j).activeTickers = s.activeTickers ∧
    (replayStep behav s j).delistedTickers = s.delistedTickers := by
  unfold replayStep
  rcases h with h | h
  · simp [h]
  · by_cases hrec : recordedIn s (generateTicker9 j)
    · simp [hrec]
    · simp [hrec, h]

lemma replayFold_const (behav : String → Nat → Option CheckResult) (L : List Nat)
    (s : R9State) :
    (L.foldl (replayStep behav) s).processed = s.processed ∧
    (L.foldl (replayStep behav) s).consecutiveErrors = s.consecutiveErrors ∧
    (L.foldl (replayStep behav) s).pauseEvents = s.pauseEvents := by
  induction L generalizing s with
  | nil => simp
  | cons j L ih =>
    simp only [List.foldl_cons]
    obtain ⟨h1, h2, h3⟩ := ih (replayStep behav s j)
    obtain ⟨g1, g2, g3⟩ := replayStep_const behav s j
    exact ⟨h1.trans g1, h2.trans g2, h3.trans g3⟩

lemma replayFold_noop {behav : String → Nat → Option CheckResult} {L : List Nat}
    {s : R9State}
    (h : ∀ j ∈ L, recordedIn s (generateTicker9 j) ∨
      retryCheck behav (generateTicker9 j) = none) :
    (L.foldl (replayStep behav) s).activeTickers = s.activeTickers ∧
    (L.foldl (replayStep behav) s).delistedTickers = s.delistedTickers := by
  induction L generalizing s with
  | nil => simp
  | cons j L ih =>
    simp only [List.foldl_cons]
    obtain ⟨g1, g2⟩ := replayStep_noop (h j (by simp))
    have hrest : ∀ m ∈ L, recordedIn (replayStep behav s j) (generateTicker9 m) ∨
        retryCheck behav (generateTicker9 m) = none := by
      intro m hm
      rcases h m (by simp [hm]) with hh | hh
      · exact Or.inl ((recordedIn_congr g1 g2 _).mpr hh)
      · exact Or.inr hh
    obtain ⟨h1, h2⟩ := ih hrest
    exact ⟨h1.trans g1, h2.trans g2⟩


lemma stepIndex_ok {behav : String → Nat → Option CheckResult} {s : R9State} {i : Nat}
    {r : CheckResult} (h : ¬ recordedIn s (generateTicker9 i))
    (hr : retryCheck behav (generateTicker9 i) = some r) :
    (stepIndex behav s i).consecutiveErrors = 0 ∧
    (stepIndex behav s i).pauseEvents = s.pauseEvents ∧
    (stepIndex behav s i).processed = s.processed + 1 ∧
    (stepIndex behav s i).validationCalls = s.validationCalls ++ [generateTicker9 i] ∧
    (∀ u, recordedIn (stepIndex behav s i) u ↔
      recordedIn s u ∨ u = generateTicker9 i) := by
  have key : stepIndex behav s i =
      { activeTickers :=
          if r.isActive then s.activeTickers ++ [generateTicker9 i] else s.activeTickers,
        delistedTickers :=
          if r.isActive then s.delistedTickers else s.delistedTickers ++ [generateTicker9 i],
        processed := s.processed + 1, consecutiveErrors := 0,
        validationCalls := s.validationCalls ++ [generateTicker9 i],
        pauseEvents := s.pauseEvents } := by
    unfold stepIndex
    rw [if_neg h]
    simp only [hr]
    by_cases hA : r.isActive = true <;> simp [hA]
  rw [key]
  by_cases hA : r.isActive = true
  · refine ⟨rfl, rfl, rfl, rfl, fun u => ?_⟩
    simp only [recordedIn, hA, List.mem_append, List.mem_singleton, if_true]
    tauto
  · refine ⟨rfl, rfl, rfl, rfl, fun u => ?_⟩
    simp only [recordedIn, hA, List.mem_append, List.mem_singleton,
      Bool.false_eq_true, ite_false]
    tauto

lemma stepIndex_fail_small {behav : String → Nat → Option CheckResult} {s : R9State}
    {i : Nat} (h : ¬ recordedIn s (generateTicker9 i))
    (hr : retryCheck behav (generateTicker9 i) = none)
    (hc : s.consecutiveErrors + 1 < 10) :
    stepIndex behav s i =
      { s with consecutiveErrors := s.consecutiveErrors + 1,
               validationCalls := s.validationCalls ++ [generateTicker9 i] } := by
  unfold stepIndex
  rw [if_neg h]
  simp only [hr]
  rw [if_neg (by omega)]

lemma stepIndex_pause_eq {behav : String → Nat → Option CheckResult} {s : R9State}
    {i : Nat} (h : ¬ recordedIn s (generateTicker9 i))
    (hr : retryCheck behav (generateTicker9 i) = none)
    (hc : 10 ≤ s.consecutiveErrors + 1) :
    stepIndex behav s i =
      { replayRange behav
          { s with validationCalls := s.validationCalls ++ [generateTicker9 i],
                   pauseEvents := s.pauseEvents ++ [PauseEvent.mk i i 60000] }
          (i - 10) i with consecutiveErrors := 0 } := by
  unfold stepIndex
  rw [if_neg h]
  simp only [hr]
  rw [if_pos hc]

lemma stepIndex_fail_pause {behav : String → Nat → Option CheckResult} {s : R9State}
    {i : Nat} (h : ¬ recordedIn s (generateTicker9 i))
    (hr : retryCheck behav (generateTicker9 i) = none)
    (hc : 10 ≤ s.consecutiveErrors + 1)
    (hw : ∀ m, i - 10 ≤ m → m < i → recordedIn s (generateTicker9 m) ∨
      retryCheck behav (generateTicker9 m) = none) :
    (stepIndex behav s i).activeTickers = s.activeTickers ∧
    (stepIndex behav s i).delistedTickers = s.delistedTickers ∧
    (stepIndex behav s i).processed = s.processed ∧
    (stepIndex behav s i).consecutiveErrors = 0 ∧
    (stepIndex behav s i).pauseEvents =
      s.pauseEvents ++ [PauseEvent.mk i i 60000] := by
  rw [stepIndex_pause_eq h hr hc]
  set s2 : R9State :=
    { s with validationCalls := s.validationCalls ++ [generateTicker9 i],
             pauseEvents := s.pauseEvents ++ [PauseEvent.mk i i 60000] } with hs2
  have hw2 : ∀ j ∈ idxRange (i - 10) (i - (i - 10)),
      recordedIn s2 (generateTicker9 j) ∨
        retryCheck behav (generateTicker9 j) = none := by
    intro j hj
    rw [mem_idxRange] at hj
    rcases hw j (by omega) (by omega) with hh | hh
    · refine Or.inl ((recordedIn_congr ?_ ?_ _).mpr hh) <;> rfl
    · exact Or.inr hh
  obtain ⟨n1, n2⟩ := replayFold_noop hw2
  obtain ⟨c1, c2, c3⟩ := replayFold_const behav (idxRange (i - 10) (i - (i - 10))) s2
  unfold replayRange
  exact ⟨n1, n2, c1, rfl, c3⟩

lemma recordedIn_mono_replayStep {behav : String → Nat → Option CheckResult}
    {s : R9State} {j : Nat} {u : String} (h : recordedIn s u) :
    recordedIn (replayStep behav s j) u := by
  unfold replayStep
  by_cases hrec : recordedIn s (generateTicker9 j)
  · simpa [hrec]
  · simp only [if_neg hrec]
    cases hrc : retryCheck behav (generateTicker9 j) with
    | none => simpa [recordedIn] using h
    | some r =>
      by_cases hA : r.isActive = true <;>
        · simp only [hA, Bool.false_eq_true, if_true, ite_false]
          rcases h with h | h <;> simp [recordedIn, List.mem_append, h]

lemma recordedIn_replayStep_src {behav : String → Nat → Option CheckResult}
    {s : R9State} {j : Nat} {u : String} (h : recordedIn (replayStep behav s j) u) :
    recordedIn s u ∨ u = generateTicker9 j := by
  unfold replayStep at h
  by_cases hrec : recordedIn s (generateTicker9 j)
  · simp only [if_pos hrec] at h
    exact Or.inl h
  · simp only [if_neg hrec] at h
    cases hrc : retryCheck behav (generateTicker9 j) with
    | none =>
      rw [hrc] at h
      exact Or.inl (by simpa [recordedIn] using h)
    | some r =>
      rw [hrc] at h
      by_cases hA : r.isActive = true <;>
        · simp only [hA, Bool.false_eq_true, if_true, ite_false] at h
          rcases h with h | h <;>
            simp only [recordedIn, List.mem_append, List.mem_singleton] at h ⊢ <;>
            tauto

lemma mem_calls_replayStep {behav : String → Nat → Option CheckResult}
    {s : R9State} {j : Nat} {u : String} (h : u ∈ s.validationCalls) :
    u ∈ (replayStep behav s j).validationCalls := by
  unfold replayStep
  by_cases hrec : recordedIn s (generateTicker9 j)
  · simpa [hrec]
  · simp only [if_neg hrec]
    cases hrc : retryCheck behav (generateTicker9 j) with
    | none => simp [List.mem_append, h]
    | some r =>
      by_cases hA : r.isActive = true <;> simp [hA, List.mem_append, h]

lemma recordedIn_mono_replayFold {b : String → Nat → Option CheckResult}
    {L : List Nat} {s : R9State} {u : String} (h : recordedIn s u) :
    recordedIn (L.foldl (replayStep b) s) u := by
  induction L generalizing s with
  | nil => simpa
  | cons j L ih => exact ih (recordedIn_mono_replayStep h)

lemma recordedIn_replayFold_src {behav : String → Nat → Option CheckResult}
    {L : List Nat} {s : R9State} {u : String}
    (h : recordedIn (L.foldl (replayStep behav) s) u) :
    recordedIn s u ∨ ∃ m ∈ L, u = generateTicker9 m := by
  induction L generalizing s with
  | nil => exact Or.inl (by simpa using h)
  | cons j L ih =>
    rcases ih (by simpa using h) with hh | ⟨m, hm, hu⟩
    · rcases recordedIn_replayStep_src hh with hh | hh
      · exact Or.inl hh
      · exact Or.inr ⟨j, by simp, hh⟩
    · exact Or.inr ⟨m, by simp [hm], hu⟩

lemma mem_calls_replayFold {b : String → Nat → Option CheckResult}
    {L : List Nat} {s : R9State} {u : String} (h : u ∈ s.validationCalls) :
    u ∈ (L.foldl (replayStep b) s).validationCalls := by
  induction L generalizing s with
  | nil => simpa
  | cons j L ih => exact ih (mem_calls_replayStep h)

lemma recordedIn_mono_stepIndex {behav : String → Nat → Option CheckResult}
    {s : R9State} {i : Nat} {u : String} (h : recordedIn s u) :
    recordedIn (stepIndex behav s i) u := by
  by_cases hrec : recordedIn s (generateTicker9 i)
  · rwa [stepIndex_skip hrec]
  · cases hrc : retryCheck behav (generateTicker9 i) with
    | some r => exact ((stepIndex_ok hrec hrc).2.2.2.2 u).mpr (Or.inl h)
    | none =>
      by_cases hc : 10 ≤ s.consecutiveErrors + 1
      · rw [stepIndex_pause_eq hrec hrc hc]
        have := recordedIn_mono_replayFold (b := behav)
          (L := idxRange (i - 10) (i - (i - 10)))
          (s := { s with validationCalls := s.validationCalls ++ [generateTicker9 i],
                         pauseEvents := s.pauseEvents ++ [PauseEvent.mk i i 60000] })
          (u := u) (by simpa [recordedIn] using h)
        simpa [recordedIn, replayRange] using this
      · rw [stepIndex_fail_small hrec hrc (by omega)]
        simpa [recordedIn] using h

lemma recordedIn_stepIndex_src {behav : String → Nat → Option CheckResult}
    {s : R9State} {i : Nat} {u : String} (h : recordedIn (stepIndex behav s i) u) :
    recordedIn s u ∨ ∃ m, m ≤ i ∧ u = generateTicker9 m := by
  by_cases hrec : recordedIn s (generateTicker9 i)
  · rw [stepIndex_skip hrec] at h
    exact Or.inl h
  · cases hrc : retryCheck behav (generateTicker9 i) with
    | some r =>
      rcases ((stepIndex_ok hrec hrc).2.2.2.2 u).mp h with hh | hh
      · exact Or.inl hh
      · exact Or.inr ⟨i, le_refl i, hh⟩
    | none =>
      by_cases hc : 10 ≤ s.consecutiveErrors + 1
      · rw [stepIndex_pause_eq hrec hrc hc] at h
        have h' : recordedIn ((idxRange (i - 10) (i - (i - 10))).foldl (replayStep behav)
            { s with validationCalls := s.validationCalls ++ [generateTicker9 i],
                     pauseEvents := s.pauseEvents ++ [PauseEvent.mk i i 60000] }) u := by
          simpa [recordedIn, replayRange] using h
        rcases recordedIn_replayFold_src h' with hh | ⟨m, hm, hu⟩
        · exact Or.inl (by simpa [recordedIn] using hh)
        · rw [mem_idxRange] at hm
          exact Or.inr ⟨m, by omega, hu⟩
      · rw [stepIndex_fail_small hrec hrc (by omega)] at h
        exact Or.inl (by simpa [recordedIn] using h)

lemma mem_calls_stepIndex {behav : String → Nat → Option CheckResult}
    {s : R9State} {i : Nat} {u : String} (h : u ∈ s.validationCalls) :
    u ∈ (stepIndex behav s i).validationCalls := by
  by_cases hrec : recordedIn s (generateTicker9 i)
  · rwa [stepIndex_skip hrec]
  · cases hrc : retryCheck behav (generateTicker9 i) with
    | some r =>
      rw [(stepIndex_ok hrec hrc).2.2.2.1]
      exact List.mem_append_left _ h
    | none =>
      by_cases hc : 10 ≤ s.consecutiveErrors + 1
      · rw [stepIndex_pause_eq hrec hrc hc]
        have := mem_calls_replayFold (b := behav)
          (L := idxRange (i - 10) (i - (i - 10)))
          (s := { s with validationCalls := s.validationCalls ++ [generateTicker9 i],
                         pauseEvents := s.pauseEvents ++ [PauseEvent.mk i i 60000] })
          (u := u) (by simp only [List.mem_append]; exact Or.inl h)
        simpa [replayRange] using this
      · rw [stepIndex_fail_small hrec hrc (by omega)]
        simp only [List.mem_append]
        exact Or.inl h

lemma mem_calls_stepIndex_self {behav : String → Nat → Option CheckResult}
    {s : R9State} {i : Nat} (hrec : ¬ recordedIn s (generateTicker9 i)) :
    generateTicker9 i ∈ (stepIndex behav s i).validationCalls := by
  cases hrc : retryCheck behav (generateTicker9 i) with
  | some r =>
    rw [(stepIndex_ok hrec hrc).2.2.2.1]
    exact List.mem_append_right _ (by simp)
  | none =>
    by_cases hc : 10 ≤ s.consecutiveErrors + 1
    · rw [stepIndex_pause_eq hrec hrc hc]
      have := mem_calls_replayFold (b := behav)
        (L := idxRange (i - 10) (i - (i - 10)))
        (s := { s with validationCalls := s.validationCalls ++ [generateTicker9 i],
                       pauseEvents := s.pauseEvents ++ [PauseEvent.mk i i 60000] })
        (u := generateTicker9 i) (by simp)
      simpa [replayRange] using this
    · rw [stepIndex_fail_small hrec hrc (by omega)]
      simp

lemma recordedIn_mono_runFold {behav : String → Nat → Option CheckResult}
    {L : List Nat} {s : R9State} {u : String} (h : recordedIn s u) :
    recordedIn (L.foldl (stepIndex behav) s) u := by
  induction L generalizing s with
  | nil => simpa
  | cons j L ih => exact ih (recordedIn_mono_stepIndex h)

lemma recordedIn_runFold_src {behav : String → Nat → Option CheckResult}
    {L : List Nat} {s : R9State} {u : String} {B : Nat} (hB : ∀ j ∈ L, j < B)
    (h : recordedIn (L.foldl (stepIndex behav) s) u) :
    recordedIn s u ∨ ∃ m, m < B ∧ u = generateTicker9 m := by
  induction L generalizing s with
  | nil => exact Or.inl (by simpa using h)
  | cons j L ih =>
    rcases ih (fun m hm => hB m (by simp [hm])) (by simpa using h) with hh | hh
    · rcases recordedIn_stepIndex_src hh with hh | ⟨m, hm, hu⟩
      · exact Or.inl hh
      · exact Or.inr ⟨m, by have := hB j (by simp); omega, hu⟩
    · exact Or.inr hh

lemma mem_calls_runFold {behav : String → Nat → Option CheckResult}
    {L : List Nat} {s : R9State} {u : String} (h : u ∈ s.validationCalls) :
    u ∈ (L.foldl (stepIndex behav) s).validationCalls := by
  induction L generalizing s with
  | nil => simpa
  | cons j L ih => exact ih (mem_calls_stepIndex h)

lemma not_called_replayStep {b : String → Nat → Option CheckResult}
    {s : R9State} {j : Nat} {u : String} (hrec : recordedIn s u)
    (hnc : u ∉ s.validationCalls) :
    recordedIn (replayStep b s j) u ∧
      u ∉ (replayStep b s j).validationCalls := by
  by_cases hskip : recordedIn s (generateTicker9 j)
  · rw [replayStep_skip hskip]
    exact ⟨hrec, hnc⟩
  · have hne : u ≠ generateTicker9 j := by
      rintro rfl
      exact hskip hrec
    refine ⟨recordedIn_mono_replayStep hrec, ?_⟩
    unfold replayStep
    simp only [if_neg hskip]
    cases hrc : retryCheck b (generateTicker9 j) with
    | none => simp [List.mem_append, hnc, hne]
    | some r =>
      by_cases hA : r.isActive = true <;> simp [hA, List.mem_append, hnc, hne]

lemma not_called_replayFold {b : String → Nat → Option CheckResult}
    {L : List Nat} {s : R9State} {u : String} (hrec : recordedIn s u)
    (hnc : u ∉ s.validationCalls) :
    recordedIn (L.foldl (replayStep b) s) u ∧
      u ∉ (L.foldl (replayStep b) s).validationCalls := by
  induction L generalizing s with
  | nil => exact ⟨by simpa using hrec, by simpa using hnc⟩
  | cons j L ih =>
    obtain ⟨h1, h2⟩ := not_called_replayStep (b := b) (j := j) hrec hnc
    exact ih h1 h2

lemma not_called_stepIndex {b : String → Nat → Option CheckResult}
    {s : R9State} {i : Nat} {u : String} (hrec : recordedIn s u)
    (hnc : u ∉ s.validationCalls) :
    recordedIn (stepIndex b s i) u ∧
      u ∉ (stepIndex b s i).validationCalls := by
  by_cases hskip : recordedIn s (generateTicker9 i)
  · rw [stepIndex_skip hskip]
    exact ⟨hrec, hnc⟩
  · have hne : u ≠ generateTicker9 i := by
      rintro rfl
      exact hskip hrec
    cases hrc : retryCheck b (generateTicker9 i) with
    | some r =>
      obtain ⟨-, -, -, hcalls, hiff⟩ := stepIndex_ok hskip hrc
      refine ⟨(hiff u).mpr (Or.inl hrec), ?_⟩
      rw [hcalls]
      simp [List.mem_append, hnc, hne]
    | none =>
      by_cases hc : 10 ≤ s.consecutiveErrors + 1
      · rw [stepIndex_pause_eq hskip hrc hc]
        have := not_called_replayFold (b := b)
          (L := idxRange (i - 10) (i - (i - 10)))
          (s := { s with validationCalls := s.validationCalls ++ [generateTicker9 i],
                         pauseEvents := s.pauseEvents ++ [PauseEvent.mk i i 60000] })
          (u := u) (by simpa [recordedIn] using hrec)
          (by simp [List.mem_append, hnc, hne])
        exact ⟨by simpa [recordedIn, replayRange] using this.1,
          by simpa [replayRange] using this.2⟩
      · rw [stepIndex_fail_small hskip hrc (by omega)]
        exact ⟨by simpa [recordedIn] using hrec,
          by simp [List.mem_append, hnc, hne]⟩

lemma not_called_runFold {behav : String → Nat → Option CheckResult}
    {L : List Nat} {s : R9State} {u : String} (hrec : recordedIn s u)
    (hnc : u ∉ s.validationCalls) :
    u ∉ (L.foldl (stepIndex behav) s).validationCalls := by
  induction L generalizing s with
  | nil => simpa using hnc
  | cons j L ih =>
    obtain ⟨h1, h2⟩ := not_called_stepIndex (b := behav) (i := j) hrec hnc
    exact ih h1 h2

lemma runFold_success {behav : String → Nat → Option CheckResult} {L : List Nat}
    {s : R9State} (h0 : s.consecutiveErrors = 0)
    (hL : ∀ j ∈ L, (retryCheck behav (generateTicker9 j)).isSome) :
    (L.foldl (stepIndex behav) s).consecutiveErrors = 0 ∧
    (L.foldl (stepIndex behav) s).pauseEvents = s.pauseEvents ∧
    (∀ j ∈ L, recordedIn (L.foldl (stepIndex behav) s) (generateTicker9 j)) ∧
    (∀ u, recordedIn (L.foldl (stepIndex behav) s) u →
      recordedIn s u ∨ ∃ j ∈ L, u = generateTicker9 j) := by
  induction L generalizing s with
  | nil => exact ⟨by simpa using h0, by simp, by simp, fun u hu => Or.inl (by simpa using hu)⟩
  | cons j L ih =>
    simp only [List.foldl_cons]
    by_cases hrec : recordedIn s (generateTicker9 j)
    · rw [stepIndex_skip hrec]
      obtain ⟨i1, i2, i3, i4⟩ := ih h0 (fun m hm => hL m (by simp [hm]))
      refine ⟨i1, i2, ?_, ?_⟩
      · intro m hm
        rcases List.mem_cons.mp hm with rfl | hm
        · exact recordedIn_mono_runFold hrec
        · exact i3 m hm
      · intro u hu
        rcases i4 u hu with hh | ⟨m, hm, hu'⟩
        · exact Or.inl hh
        · exact Or.inr ⟨m, by simp [hm], hu'⟩
    · obtain ⟨r, hrc⟩ := Option.isSome_iff_exists.mp (hL j (by simp))
      obtain ⟨o1, o2, o3, o4, o5⟩ := stepIndex_ok hrec hrc
      obtain ⟨i1, i2, i3, i4⟩ := ih o1 (fun m hm => hL m (by simp [hm]))
      refine ⟨i1, i2.trans o2, ?_, ?_⟩
      · intro m hm
        rcases List.mem_cons.mp hm with rfl | hm
        · exact recordedIn_mono_runFold ((o5 _).mpr (Or.inr rfl))
        · exact i3 m hm
      · intro u hu
        rcases i4 u hu with hh | ⟨m, hm, hu'⟩
        · rcases (o5 u).mp hh with hh | hh
          · exact Or.inl hh
          · exact Or.inr ⟨j, by simp, hh⟩
        · exact Or.inr ⟨m, by simp [hm], hu'⟩

lemma runFold_failBlock {behav : String → Nat → Option CheckResult} {L : List Nat}
    {s : R9State}
    (hfail : ∀ j ∈ L, retryCheck behav (generateTicker9 j) = none)
    (hnr : ∀ j ∈ L, ¬ recordedIn s (generateTicker9 j))
    (hc : s.consecutiveErrors + L.length < 10) :
    (L.foldl (stepIndex behav) s).activeTickers = s.activeTickers ∧
    (L.foldl (stepIndex behav) s).delistedTickers = s.delistedTickers ∧
    (L.foldl (stepIndex behav) s).processed = s.processed ∧
    (L.foldl (stepIndex behav) s).pauseEvents = s.pauseEvents ∧
    (L.foldl (stepIndex behav) s).consecutiveErrors =
      s.consecutiveErrors + L.length := by
  induction L generalizing s with
  | nil => simp
  | cons j L ih =>
    simp only [List.foldl_cons, List.length_cons]
    have hstep := stepIndex_fail_small (hnr j (by simp)) (hfail j (by simp))
      (by simp at hc; omega)
    rw [hstep]
    have hnr' : ∀ m ∈ L, ¬ recordedIn
        { s with consecutiveErrors := s.consecutiveErrors + 1,
                 validationCalls := s.validationCalls ++ [generateTicker9 j] }
        (generateTicker9 m) := by
      intro m hm hmem
      exact hnr m (by simp [hm]) (by simpa [recordedIn] using hmem)
    obtain ⟨i1, i2, i3, i4, i5⟩ := ih (fun m hm => hfail m (by simp [hm])) hnr'
      (by simp at hc ⊢; omega)
    refine ⟨i1, i2, i3, i4, ?_⟩
    rw [i5]
    simp
    omega

lemma upd_symbol_eq (s : String) (row : LedgerRow) (hrow : row.symbol = s)
    (r : LedgerRow) : ((if r.symbol = s then row else r)).symbol = r.symbol := by
  by_cases h : r.symbol = s <;> simp [h, hrow]

lemma find?_map_replace {t : List LedgerRow} {s : String} {w : LedgerRow}
    (hrow : w.symbol = s) (hex : ∃ r ∈ t, r.symbol = s) :
    (t.map (fun r => if r.symbol = s then w else r)).find?
      (fun r => r.symbol == s) = some w := by
  induction t with
  | nil => simp at hex
  | cons a t ih =>
    by_cases ha : a.symbol = s
    · simp [List.find?, ha, hrow]
    · simp only [List.map_cons, List.find?, if_neg ha]
      rw [show (a.symbol == s) = false by simpa using ha]
      apply ih
      rcases hex with ⟨r, hr, hrs⟩
      rcases List.mem_cons.mp hr with rfl | hr
      · exact absurd hrs ha
      · exact ⟨r, hr, hrs⟩

lemma filter_map_replace_nodup {t : List LedgerRow} {s : String} {w : LedgerRow}
    (hrow : w.symbol = s) (hnd : (t.map (fun r => r.symbol)).Nodup)
    (hex : ∃ r ∈ t, r.symbol = s) :
    (t.map (fun r => if r.symbol = s then w else r)).filter
      (fun r => r.symbol == s) = [w] := by
  induction t with
  | nil => simp at hex
  | cons a t ih =>
    simp only [List.map_cons, List.nodup_cons] at hnd
    by_cases ha : a.symbol = s
    · have hnone : ∀ r ∈ t, r.symbol ≠ s := by
        intro r hr hrs
        exact hnd.1 (by rw [ha, ← hrs]; exact List.mem_map_of_mem _ hr)
      simp only [List.map_cons, if_pos ha, List.filter]
      rw [show (w.symbol == s) = true by simpa using hrow]
      have : (t.map (fun r => if r.symbol = s then w else r)).filter
          (fun r => r.symbol == s) = [] := by
        rw [List.filter_eq_nil_iff]
        intro b hb
        rcases List.mem_map.mp hb with ⟨r, hr, rfl⟩
        rw [if_neg (hnone r hr)]
        simpa using hnone r hr
      simp [this]
    · simp only [List.map_cons, if_neg ha, List.filter]
      rw [show (a.symbol == s) = false by simpa using ha]
      apply ih hnd.2
      rcases hex with ⟨r, hr, hrs⟩
      rcases List.mem_cons.mp hr with rfl | hr
      · exact absurd hrs ha
      · exact ⟨r, hr, hrs⟩

lemma find?_append_new {t : List LedgerRow} {s : String} {w : LedgerRow}
    (hnone : ∀ r ∈ t, r.symbol ≠ s) (hrow : w.symbol = s) :
    (t ++ [w]).find? (fun r => r.symbol == s) = some w := by
  induction t with
  | nil => simp [List.find?, hrow]
  | cons a t ih =>
    simp only [List.cons_append, List.find?]
    rw [show (a.symbol == s) = false by simpa using hnone a (by simp)]
    exact ih (fun r hr => hnone r (by simp [hr]))

lemma filter_append_new {t : List LedgerRow} {s : String} {w : LedgerRow}
    (hnone : ∀ r ∈ t, r.symbol ≠ s) (hrow : w.symbol = s) :
    (t ++ [w]).filter (fun r => r.symbol == s) = [w] := by
  rw [List.filter_append]
  have h1 : t.filter (fun r => r.symbol == s) = [] := by
    rw [List.filter_eq_nil_iff]
    intro b hb
    simpa using hnone b hb
  rw [h1]
  simp [List.filter, show (w.symbol == s) = true by simpa using hrow]

lemma double_upsert {t : List LedgerRow} {s : String}
    (hnd : (t.map (fun r => r.symbol)).Nodup) :
    ((upsertTicker t s "active" { price := some 10 }).bind
      (fun t1 => upsertTicker t1 s "delisted" {})).map
      (fun t2 => (getTickerDetails t2 s,
        (t2.filter (fun r => r.symbol == s)).length)) =
    Except.ok (some (LedgerRow.mk s "delisted" none (some "USD") none), 1) := by
  by_cases hany : t.any (fun r => r.symbol == s) = true
  · have hex : ∃ r ∈ t, r.symbol = s := by simpa using hany
    have e1 : upsertTicker t s "active" { price := some 10 } =
        .ok (t.map (fun r => if r.symbol = s then
          LedgerRow.mk s "active" (some 10) (some "USD") none else r)) := by
      unfold upsertTicker
      rw [if_pos (Or.inl rfl), if_pos hany]
    have hmem1 : LedgerRow.mk s "active" (some 10) (some "USD") none ∈
        t.map (fun r => if r.symbol = s then
          LedgerRow.mk s "active" (some 10) (some "USD") none else r) := by
      rcases hex with ⟨r, hr, hrs⟩
      exact List.mem_map.mpr ⟨r, hr, by rw [if_pos hrs]⟩
    have hany2 : (t.map (fun r => if r.symbol = s then
        LedgerRow.mk s "active" (some 10) (some "USD") none else r)).any
        (fun r => r.symbol == s) = true := by
      rw [List.any_eq_true]
      exact ⟨_, hmem1, by simp⟩
    have e2 : upsertTicker (t.map (fun r => if r.symbol = s then
        LedgerRow.mk s "active" (some 10) (some "USD") none else r)) s "delisted" {} =
        .ok ((t.map (fun r => if r.symbol = s then
          LedgerRow.mk s "active" (some 10) (some "USD") none else r)).map
            (fun r => if r.symbol = s then
              LedgerRow.mk s "delisted" none (some "USD") none else r)) := by
      unfold upsertTicker
      rw [if_pos (Or.inr rfl), if_pos hany2]
    rw [e1]
    show (upsertTicker _ s "delisted" {}).map _ = _
    rw [e2]
    simp only [Except.map]
    rw [List.map_map]
    have hcomp : ((fun r => if r.symbol = s then
        LedgerRow.mk s "delisted" none (some "USD") none else r) ∘
        (fun r => if r.symbol = s then
          LedgerRow.mk s "active" (some 10) (some "USD") none else r)) =
        (fun r => if r.symbol = s then
          LedgerRow.mk s "delisted" none (some "USD") none else r) := by
      funext r
      by_cases h : r.symbol = s <;> simp [Function.comp, h]
    rw [hcomp]
    unfold getTickerDetails
    rw [find?_map_replace (t := t) (s := s)
        (w := LedgerRow.mk s "delisted" none (some "USD") none) rfl hex,
      filter_map_replace_nodup (t := t) (s := s)
        (w := LedgerRow.mk s "delisted" none (some "USD") none) rfl hnd hex]
    rfl
  · have hnone : ∀ r ∈ t, r.symbol ≠ s := by
      intro r hr
      have := List.any_eq_false.mp (Bool.not_eq_true _ ▸ hany) r hr
      simpa using this
    have e1 : upsertTicker t s "active" { price := some 10 } =
        .ok (t ++ [LedgerRow.mk s "active" (some 10) (some "USD") none]) := by
      unfold upsertTicker
      rw [if_pos (Or.inl rfl), if_neg (by simp [hany])]
    have hany2 : (t ++ [LedgerRow.mk s "active" (some 10) (some "USD") none]).any
        (fun r => r.symbol == s) = true := by
      rw [List.any_eq_true]
      exact ⟨LedgerRow.mk s "active" (some 10) (some "USD") none,
        List.mem_append_right _ (by simp), by simp⟩
    have e2 : upsertTicker (t ++ [LedgerRow.mk s "active" (some 10) (some "USD") none])
        s "delisted" {} =
        .ok ((t ++ [LedgerRow.mk s "active" (some 10) (some "USD") none]).map
          (fun r => if r.symbol = s then
            LedgerRow.mk s "delisted" none (some "USD") none else r)) := by
      unfold upsertTicker
      rw [if_pos (Or.inr rfl), if_pos hany2]
    rw [e1]
    show (upsertTicker _ s "delisted" {}).map _ = _
    rw [e2]
    simp only [Except.map]
    rw [List.map_append]
    have ht : t.map (fun r => if r.symbol = s then
        LedgerRow.mk s "delisted" none (some "USD") none else r) = t := by
      conv_rhs => rw [← List.map_id t]
      exact List.map_congr_left (fun r hr => by rw [if_neg (hnone r hr)]; rfl)
    have hrow : [LedgerRow.mk s "active" (some 10) (some "USD") none].map
        (fun r => if r.symbol = s then
          LedgerRow.mk s "delisted" none (some "USD") none else r) =
        [LedgerRow.mk s "delisted" none (some "USD") none] := by
      simp
    rw [ht, hrow]
    unfold getTickerDetails
    rw [find?_append_new (t := t) (s := s)
        (w := LedgerRow.mk s "delisted" none (some "USD") none) hnone rfl,
      filter_append_new (t := t) (s := s)
        (w := LedgerRow.mk s "delisted" none (some "USD") none) hnone rfl]
    rfl

lemma validStatuses_upsert {t : List LedgerRow} {s st : String} {d : Details}
    (h : validStatuses t) :
    validStatuses (applyLedgerOp t (.upsert s st d)) := by
  simp only [applyLedgerOp]
  by_cases hst : st = "active" ∨ st = "delisted"
  · have e : upsertTicker t s st d = .ok (if t.any (fun r => r.symbol == s) then
        t.map (fun r => if r.symbol = s then
          LedgerRow.mk s st d.price (some d.currency) d.exchange else r)
      else t ++ [LedgerRow.mk s st d.price (some d.currency) d.exchange]) := by
      unfold upsertTicker
      rw [if_pos hst]
    rw [e]
    intro r hr
    by_cases hany : t.any (fun r => r.symbol == s) = true
    · rw [if_pos hany] at hr
      rcases List.mem_map.mp hr with ⟨r0, hr0, rfl⟩
      by_cases h0 : r0.symbol = s
      · rw [if_pos h0]
        exact hst
      · rw [if_neg h0]
        exact h r0 hr0
    · rw [if_neg hany] at hr
      rcases List.mem_append.mp hr with hr | hr
      · exact h r hr
      · rcases List.mem_singleton.mp hr with rfl
        exact hst
  · have e : upsertTicker t s st d = .error "CHECK constraint failed: status" := by
      unfold upsertTicker
      rw [if_neg hst]
    rw [e]
    exact h

lemma validStatuses_move {t : List LedgerRow} {s st : String} {d : Details}
    (h : validStatuses t) :
    validStatuses (applyLedgerOp t (.move s st d)) := by
  simp only [applyLedgerOp]
  by_cases hst : st = "active" ∨ st = "delisted"
  · have e : moveTickerToStatus t s st d = .ok (t.map (fun r => if r.symbol = s then
        { r with status := st, price := d.price, exchange := d.exchange } else r)) := by
      unfold moveTickerToStatus
      rw [if_pos hst]
    rw [e]
    intro r hr
    rcases List.mem_map.mp hr with ⟨r0, hr0, rfl⟩
    by_cases h0 : r0.symbol = s
    · rw [if_pos h0]
      exact hst
    · rw [if_neg h0]
      exact h r0 hr0
  · have e : moveTickerToStatus t s st d = .error "CHECK constraint failed: status" := by
      unfold moveTickerToStatus
      rw [if_neg hst]
    rw [e]
    exact h

lemma validStatuses_applyLedgerOp {t : List LedgerRow} {op : LedgerOp}
    (h : validStatuses t) : validStatuses (applyLedgerOp t op) := by
  cases op with
  | upsert s st d => exact validStatuses_upsert h
  | move s st d => exact validStatuses_move h

lemma validStatuses_foldOps {ops : List LedgerOp} {t : List LedgerRow}
    (h : validStatuses t) : validStatuses (ops.foldl applyLedgerOp t) := by
  induction ops generalizing t with
  | nil => simpa
  | cons op ops ih => exact ih (validStatuses_applyLedgerOp h)

lemma bulkInsertStep_rows {t : List LedgerRow} {tk : String}
    (h : ∀ r ∈ t, r.status = "delisted" ∧ r.price = none) :
    ∀ r ∈ bulkInsertStep t tk, r.status = "delisted" ∧ r.price = none := by
  unfold bulkInsertStep
  cases hgd : getTickerDetails t tk with
  | some _ => exact h
  | none =>
    simp only [applyLedgerOp]
    have e : upsertTicker t tk "delisted" { price := none, exchange := none } =
        .ok (if t.any (fun r => r.symbol == tk) then
          t.map (fun r => if r.symbol = tk then
            LedgerRow.mk tk "delisted" none (some "USD") none else r)
        else t ++ [LedgerRow.mk tk "delisted" none (some "USD") none]) := by
      unfold upsertTicker
      rw [if_pos (Or.inr rfl)]
    rw [e]
    intro r hr
    by_cases hany : t.any (fun r => r.symbol == tk) = true
    · rw [if_pos hany] at hr
      rcases List.mem_map.mp hr with ⟨r0, hr0, rfl⟩
      by_cases h0 : r0.symbol = tk
      · rw [if_pos h0]
        exact ⟨rfl, rfl⟩
      · rw [if_neg h0]
        exact h r0 hr0
    · rw [if_neg hany] at hr
      rcases List.mem_append.mp hr with hr | hr
      · exact h r hr
      · rcases List.mem_singleton.mp hr with rfl
        exact ⟨rfl, rfl⟩

lemma bulkInsert_rows {tickers : List String} {t : List LedgerRow}
    (h : ∀ r ∈ t, r.status = "delisted" ∧ r.price = none) :
    ∀ r ∈ bulkInsertTickers tickers t, r.status = "delisted" ∧ r.price = none := by
  induction tickers generalizing t with
  | nil => simpa [bulkInsertTickers]
  | cons tk tks ih =>
    simp only [bulkInsertTickers, List.foldl_cons] at *
    exact ih (bulkInsertStep_rows h)

/-- C1 counterexample: the claim also cites the legacy plain base-26
do-while `generateTicker` (src/unnamed/part_009 lines 18-29), and that
mapping violates the claim's anchors: at index 26 it yields "BA", not
"AA", and the spec inverse sends "BA" to 52, not back to 26. -/
theorem claim_enumerator_bijection_cex :
    generateTickerLegacy 26 = "BA" ∧ generateTickerLegacy 26 ≠ "AA" ∧
    indexOf (generateTickerLegacy 26) = 52 := by
  decide

/-- C1 amended: for the banded enumerator — `generateTicker` in
src/Slow-Search.js lines 33-64, which `generateTicker` of
src/unnamed/part_009 lines 310-330 computes identically — every index
below `domainSize(4)` is inverted by `indexOf` (lengths enumerated in
increasing order, global index offset by the cumulative size of shorter
lengths), with the anchor values `symbolAt 0 = "A"`, `symbolAt 25 = "Z"`,
`symbolAt 26 = "AA"`, `symbolAt 701 = "ZZ"`, `symbolAt 702 = "AAA"`.
The legacy do-while variant of part_009 lines 18-29 does not satisfy
this (see the counterexample). -/
theorem claim_enumerator_bijection :
    (∀ i, i < calculateTotalTickers false → indexOf (generateTicker i) = i) ∧
    generateTicker 0 = "A" ∧ generateTicker 25 = "Z" ∧ generateTicker 26 = "AA" ∧
    generateTicker 701 = "ZZ" ∧ generateTicker 702 = "AAA" ∧
    (∀ i, generateTicker9 i = generateTicker i) := by
  refine ⟨fun i hi => indexOf_generateTicker ?_, by decide, by decide, by decide,
    by decide, by decide, generateTicker9_eq⟩
  exact (show calculateTotalTickers false = 475254 by decide) ▸ hi

/-- Witness for C1 at the concrete index 702. -/
theorem claim_enumerator_bijection_witness :
    702 < calculateTotalTickers false ∧ indexOf (generateTicker 702) = 702 :=
  ⟨by decide, claim_enumerator_bijection.1 702 (by decide)⟩

/-- C8: the domain size is 26 + 676 + 17,576 + 456,976 = 475,254 without
length 5, and 12,356,630 with the extra 26^5 = 11,881,376. -/
theorem claim_domain_size :
    calculateTotalTickers false = 26 + 676 + 17576 + 456976 ∧
    calculateTotalTickers false = 475254 ∧
    calculateTotalTickers true = calculateTotalTickers false + 11881376 ∧
    calculateTotalTickers true = 12356630 := by
  decide

/-- C9 counterexample: at the first out-of-range index the code returns
normally with the empty string, whereas the spec-modelled `symbolAt`
fails with `OutOfRange`; `generateTicker` never raises an error. -/
theorem claim_out_of_range_cex :
    generateTicker 475254 = "" ∧
    symbolAtSpec 475254 = .error "OutOfRange" := by
  constructor
  · rfl
  · rfl

/-- C9 amended: for every index at or beyond `domainSize(4)` (length 5
excluded, as in the code), `generateTicker` returns the empty-string
sentinel rather than a valid symbol; it does not fail with an error. -/
theorem claim_out_of_range_amended :
    ∀ i, calculateTotalTickers false ≤ i → generateTicker i = "" := by
  intro i h
  have h475 : 475254 ≤ i := (show calculateTotalTickers false = 475254 by decide) ▸ h
  unfold generateTicker
  rw [if_neg (by omega), if_neg (by omega), if_neg (by omega), if_neg (by omega)]

/-- Witness for the amended C9 at the concrete index 475254. -/
theorem claim_out_of_range_witness :
    calculateTotalTickers false ≤ 475254 ∧ generateTicker 475254 = "" :=
  ⟨by decide, claim_out_of_range_amended 475254 (by decide)⟩

/-- C4: contrary to the claim, a transport-level error (here a thrown
error named "TimeoutError", i.e. not a `FailedYahooValidationError`)
makes `validateTicker` in src/index-db.js return a delisted verdict with
exchange 'ERROR', and the discovery loop upserts that verdict into the
ledger as a delisted row. -/
theorem claim_transport_error_bug :
    validateTicker_idb "AAPL" (.error (JsError.mk "TimeoutError" none)) =
      VRow.mk "delisted" "AAPL" none (some "ERROR") ∧
    recordVerdict []
      (validateTicker_idb "AAPL" (.error (JsError.mk "TimeoutError" none))) =
      .ok [LedgerRow.mk "AAPL" "delisted" none (some "USD") (some "ERROR")] := by
  constructor
  · decide
  · rfl

/-- C7 counterexample: in the four-symbol scenario the stats row of
`getStats` (src/ticker-database.js) is `{total:4, active:2, delisted:2}`
and reading its `validated` field yields `undefined`, not 4. -/
theorem claim_stats_validated_cex :
    statsField (getStats scenarioTable) "validated" = none ∧
    getStats scenarioTable = Stats.mk 4 2 2 := by
  decide

/-- C7 amended: `getStats` returns only `{total, active, delisted}` —
`{4, 2, 2}` in the four-symbol scenario, with no `validated` field —
while the bulk validator's separate `getStats` (src/unnamed/part_005)
reports `validated_count = 4` there, counting rows with a non-null price
(the confirmed-inactive marker price = -1 is non-null). -/
theorem claim_stats_amended :
    getStats scenarioTable = Stats.mk 4 2 2 ∧
    statsField (getStats scenarioTable) "total" = some 4 ∧
    statsField (getStats scenarioTable) "active" = some 2 ∧
    statsField (getStats scenarioTable) "delisted" = some 2 ∧
    statsField (getStats scenarioTable) "validated" = none ∧
    getStatsFast scenarioFastTable = FastStats.mk 4 2 2 0 4 := by
  decide

/-- C3 counterexample: a response with a usable price whose exchange is
spelled "NASDAQ" matches the spec's case-insensitive recognizer, yet
`checkTicker` (case-sensitive `includes("Nasdaq")`) classifies it as not
active. -/
theorem claim_validator_ci_cex :
    recognizedExchangeCI (exchOf cexQuote) = true ∧
    cexQuote.regularMarketPrice.isSome = true ∧
    (checkTicker (.ok cexQuote)).isActive = false := by
  decide

/-- C3 amended: only `checkTicker` in src/Slow-Search.js implements the
claimed conjunction — an active verdict (carrying the quote's price and
exchange) iff a truthy symbol, an exchange containing "NYSE" / "Nasdaq"
/ "AMEX" as a CASE-SENSITIVE substring, and a non-null market price,
with recognized-exchange-but-no-price yielding delisted.  The other two
cited validators each drop one conjunct: `validateTicker` in
src/validate-active.js is active on a recognized exchange regardless of
price (a null price still yields active, not delisted), and
`validateTicker` in src/index-db.js is active on any truthy price with
no exchange check at all. -/
theorem claim_validator_exchange_match :
    (∀ q : Quote,
      ((checkTicker (.ok q)).isActive = true ↔
        (jsTruthyStr q.symbol = true ∧ isUS (exchOf q) = true ∧
          q.regularMarketPrice.isSome = true)) ∧
      ((checkTicker (.ok q)).isActive = true →
        (checkTicker (.ok q)).price = q.regularMarketPrice ∧
        (checkTicker (.ok q)).exchange = some (exchOf q)) ∧
      (jsTruthyStr q.symbol = true → isUS (exchOf q) = true →
        q.regularMarketPrice = none →
        (checkTicker (.ok q)).isActive = false ∧
        (checkTicker (.ok q)).price = none ∧
        (checkTicker (.ok q)).exchange = some (exchOf q))) ∧
    (∀ q : Quote, (validateTicker_va (.ok q)).status = "active" ↔
      (jsTruthyStr q.symbol = true ∧ isUS (exchOf q) = true)) ∧
    (∀ q : Quote, jsTruthyStr q.symbol = true → isUS (exchOf q) = true →
      q.regularMarketPrice = none →
      (validateTicker_va (.ok q)).status = "active" ∧
      (validateTicker_va (.ok q)).price = none) ∧
    (∀ (tk : String) (q : IdbQuote),
      (validateTicker_idb tk (.ok (some q))).status = "active" ↔
        jsTruthyNum q.regularMarketPrice = true) := by
  refine ⟨fun q => ?_, fun q => ?_, fun q h1 h2 h0 => ?_, fun tk q => ?_⟩
  pick_goal 2
  · by_cases h1 : jsTruthyStr q.symbol = true
    · by_cases h2 : isUS (exchOf q) = true
      · simp [validateTicker_va, h1, h2]
      · simp [validateTicker_va, h1, h2]
    · simp [validateTicker_va, h1]
  pick_goal 2
  · constructor
    · simp [validateTicker_va, h1, h2]
    · simp [validateTicker_va, h1, h2, h0]
  pick_goal 2
  · by_cases hp : jsTruthyNum q.regularMarketPrice = true <;>
      simp [validateTicker_idb, hp]
  by_cases h1 : jsTruthyStr q.symbol = true
  · by_cases h2 : isUS (exchOf q) = true
    · by_cases h3 : q.regularMarketPrice.isSome = true
      · refine ⟨?_, ?_, ?_⟩
        · simp [checkTicker, h1, h2, h3]
        · intro _
          simp [checkTicker, h1, h2, h3]
        · intro _ _ h0
          rw [h0] at h3
          simp at h3
      · have h3' : q.regularMarketPrice = none := by
          rcases hq : q.regularMarketPrice with _ | v
          · rfl
          · rw [hq] at h3
            simp at h3
        refine ⟨?_, ?_, ?_⟩
        · simp [checkTicker, h1, h2, h3]
        · intro hA
          rw [show (checkTicker (.ok q)).isActive = false by
            simp [checkTicker, h1, h2, h3]] at hA
          exact absurd hA (by simp)
        · intro _ _ _
          simp [checkTicker, h1, h2, h3]
    · refine ⟨?_, ?_, ?_⟩
      · simp [checkTicker, h1, h2]
      · intro hA
        rw [show (checkTicker (.ok q)).isActive = false by
          simp [checkTicker, h1, h2]] at hA
        exact absurd hA (by simp)
      · intro _ hus _
        exact absurd hus h2
  · refine ⟨?_, ?_, ?_⟩
    · simp [checkTicker, h1]
    · intro hA
      rw [show (checkTicker (.ok q)).isActive = false by
        simp [checkTicker, h1]] at hA
      exact absurd hA (by simp)
    · intro hsym _ _
      exact absurd hsym h1

/-- Witness for the amended C3: a NasdaqGS quote with a price is active. -/
theorem claim_validator_exchange_match_witness :
    (checkTicker (.ok (Quote.mk (some "IBM") (some "NasdaqGS") none (some 100)
      (some "USD")))).isActive = true :=
  ((claim_validator_exchange_match.1
    (Quote.mk (some "IBM") (some "NasdaqGS") none (some 100) (some "USD"))).1).mpr
    (by refine ⟨by decide, by decide, by decide⟩)

/-- C6: on any table with unique symbols, upserting `(s, active,
{price:10})` then `(s, delisted, {})` leaves exactly one row for `s`,
with status delisted and a null price (the stale active price is gone);
`getTickerDetails` reports the delisted row. -/
theorem claim_status_transition :
    ∀ (t : List LedgerRow) (s : String), (t.map (fun r => r.symbol)).Nodup →
      ((upsertTicker t s "active" { price := some 10 }).bind
        (fun t1 => upsertTicker t1 s "delisted" {})).map
        (fun t2 => (getTickerDetails t2 s,
          (t2.filter (fun r => r.symbol == s)).length)) =
      Except.ok (some (LedgerRow.mk s "delisted" none (some "USD") none), 1) :=
  fun _ _ hnd => double_upsert hnd

/-- Witness for C6 on a one-row table. -/
theorem claim_status_transition_witness :
    (([LedgerRow.mk "XYZ" "active" (some 5) (some "USD") none]).map
      (fun r => r.symbol)).Nodup ∧
    ((upsertTicker [LedgerRow.mk "XYZ" "active" (some 5) (some "USD") none]
        "ABC" "active" { price := some 10 }).bind
      (fun t1 => upsertTicker t1 "ABC" "delisted" {})).map
      (fun t2 => (getTickerDetails t2 "ABC",
        (t2.filter (fun r => r.symbol == "ABC")).length)) =
    Except.ok (some (LedgerRow.mk "ABC" "delisted" none (some "USD") none), 1) :=
  ⟨by decide, claim_status_transition
    [LedgerRow.mk "XYZ" "active" (some 5) (some "USD") none] "ABC" (by decide)⟩

/-- C10: the CHECK constraint rejects any status other than 'active' or
'delisted' (shown on the literal status "unvalidated"); every table
reachable from empty through the code's mutation operations has only
those two statuses; the bulk generator's rows are all inserted as
delisted with a null price; and the bulk validator's
`getUnvalidatedTickers` separates such never-validated rows (price NULL)
from confirmed-inactive ones (price -1). -/
theorem claim_ledger_status_check :
    upsertTicker [] "X" "unvalidated" {} = .error "CHECK constraint failed: status" ∧
    (∀ ops : List LedgerOp, validStatuses (ops.foldl applyLedgerOp [])) ∧
    (∀ tickers : List String, ∀ r ∈ bulkInsertTickers tickers [],
      r.status = "delisted" ∧ r.price = none) ∧
    getUnvalidatedTickers
      [FastRow.mk "AB" 0 none none, FastRow.mk "CD" 0 (some (-1)) (some "INACTIVE")] =
      ["AB"] := by
  refine ⟨by rfl, ?_, ?_, by decide⟩
  · intro ops
    exact validStatuses_foldOps (by intro r hr; exact absurd hr (List.not_mem_nil r))
  · intro tickers
    exact bulkInsert_rows (by intro r hr; exact absurd hr (List.not_mem_nil r))

/-- Witness for C10: the row the bulk generator creates for "A". -/
theorem claim_ledger_status_check_witness :
    LedgerRow.mk "A" "delisted" none (some "USD") none ∈ bulkInsertTickers ["A"] [] ∧
    (LedgerRow.mk "A" "delisted" none (some "USD") none).status = "delisted" ∧
    (LedgerRow.mk "A" "delisted" none (some "USD") none).price = none :=
  ⟨by decide,
    (claim_ledger_status_check.2.2.1 ["A"] _ (by decide)).1,
    (claim_ledger_status_check.2.2.1 ["A"] _ (by decide)).2⟩

lemma idxRange_length (lo n : Nat) : (idxRange lo n).length = n := by
  induction n generalizing lo with
  | zero => rfl
  | succ n ih => simp [idxRange, ih]

/-- C2: with a checkpoint whose `currentIndex = k < total`, the Runner
resumes at `k`; over the whole restarted run no symbol already recorded
as active or delisted in the initial ledger state is ever sent to the
validator again (in particular none from indices below `k`); every
not-yet-recorded index from `k` up to `total` is validated; and a
recorded symbol is skipped leaving the state — including the processed
count — unchanged. -/
theorem claim_checkpoint_resume :
    ∀ (behav : String → Nat → Option CheckResult) (cp : Checkpoint) (total : Nat)
      (init : R9State),
      cp.currentIndex < total → total ≤ 475254 → init.validationCalls = [] →
      resumeStart (some cp) total = some cp.currentIndex ∧
      (∀ u, recordedIn init u →
        u ∉ (run9 behav cp.currentIndex total init).validationCalls) ∧
      (∀ i, i < total → cp.currentIndex ≤ i →
        ¬ recordedIn init (generateTicker9 i) →
        generateTicker9 i ∈ (run9 behav cp.currentIndex total init).validationCalls) ∧
      (∀ (s : R9State) (i : Nat), recordedIn s (generateTicker9 i) →
        stepIndex behav s i = s) := by
  intro behav cp total init hlt htot hcalls
  refine ⟨?_, ?_, ?_, fun s i h => stepIndex_skip h⟩
  · have hd : decide (total ≤ cp.currentIndex) = false :=
      decide_eq_false (by omega)
    show (if (actualProgressGE1 cp && decide (total ≤ cp.currentIndex)) = true then none
      else if total ≤ cp.currentIndex then some 0 else some cp.currentIndex) =
      some cp.currentIndex
    rw [hd, Bool.and_false, if_neg (by simp), if_neg (by omega)]
  · intro u hu
    unfold run9
    exact not_called_runFold hu (by rw [hcalls]; exact List.not_mem_nil u)
  · intro i hi hki hnr
    unfold run9
    have e1 : total - cp.currentIndex = (i - cp.currentIndex) + (total - i) := by omega
    have e2 : cp.currentIndex + (i - cp.currentIndex) = i := by omega
    rw [e1, idxRange_append, e2, List.foldl_append]
    have e3 : total - i = 1 + (total - i - 1) := by omega
    rw [e3, idxRange_append, show idxRange i 1 = [i] from rfl]
    rw [List.foldl_append]
    simp only [List.foldl_cons, List.foldl_nil]
    have hnr1 : ¬ recordedIn
        ((idxRange cp.currentIndex (i - cp.currentIndex)).foldl (stepIndex behav) init)
        (generateTicker9 i) := by
      intro hrec
      rcases recordedIn_runFold_src (B := i)
          (fun j hj => by rw [mem_idxRange] at hj; omega) hrec with hh | ⟨m, hm, hu⟩
      · exact hnr hh
      · exact absurd (generateTicker9_inj (show i < 475254 by omega)
          (show m < 475254 by omega) hu) (by omega)
    exact mem_calls_runFold (mem_calls_stepIndex_self hnr1)

/-- Witness for C2: a run resumed at index 37 of 100 never re-validates
the already-recorded symbol "A". -/
theorem claim_checkpoint_resume_witness :
    "A" ∉ (run9 (fun _ _ => some (CheckResult.mk false none none none none)) 37 100
      (R9State.mk ["A"] ["B"] 0 0 [] [])).validationCalls :=
  (claim_checkpoint_resume (fun _ _ => some (CheckResult.mk false none none none none))
    (Checkpoint.mk 37 100 37 0 0) 100 (R9State.mk ["A"] ["B"] 0 0 [] [])
    (by decide) (by decide) rfl).2.1 "A" (by decide)

/-- C5: in a run where the validator raises transport-level errors for
exactly the ten consecutive indices `k..k+9` (all retries exhausted) and
returns verdicts everywhere else, the Runner pauses exactly once — at the
tenth failure, saving its checkpoint at that index and waiting 60000 ms
before replaying the previous ten indices — resets the consecutive-error
count to zero, resumes processing every later index, and none of the ten
failing symbols is recorded in the delisted (or active) ledger list. -/
theorem claim_consecutive_error_escalation :
    ∀ (behav : String → Nat → Option CheckResult) (st k total : Nat) (init : R9State),
      init.activeTickers = [] → init.delistedTickers = [] →
      init.consecutiveErrors = 0 → init.pauseEvents = [] →
      st < k → k + 10 ≤ total → total ≤ 475254 →
      (∀ i, i < total → st ≤ i → (i < k ∨ k + 9 < i) →
        (retryCheck behav (generateTicker9 i)).isSome = true) →
      (∀ i, k ≤ i → i ≤ k + 9 → retryCheck behav (generateTicker9 i) = none) →
      (run9 behav st total init).pauseEvents =
        [PauseEvent.mk (k + 9) (k + 9) 60000] ∧
      (run9 behav st total init).consecutiveErrors = 0 ∧
      (∀ i, k ≤ i → i ≤ k + 9 →
        generateTicker9 i ∉ (run9 behav st total init).delistedTickers ∧
        generateTicker9 i ∉ (run9 behav st total init).activeTickers) ∧
      (∀ i, k + 9 < i → i < total →
        recordedIn (run9 behav st total init) (generateTicker9 i)) := by
  intro behav st k total init hact hdel hcons hpse hsk hkt htot hgood hfail
  unfold run9
  have e1 : total - st = (k - st) + (total - k) := by omega
  have e2 : st + (k - st) = k := by omega
  rw [e1, idxRange_append, e2]
  have e3 : total - k = 9 + (total - k - 9) := by omega
  rw [e3, idxRange_append]
  have e4 : total - k - 9 = 1 + (total - k - 10) := by omega
  rw [e4, idxRange_append, show idxRange (k + 9) 1 = [k + 9] from rfl]
  rw [List.foldl_append, List.foldl_append, List.foldl_append]
  simp only [List.foldl_cons, List.foldl_nil]
  set A : List Nat := idxRange st (k - st) with hA
  set s1 : R9State := A.foldl (stepIndex behav) init with hs1
  set B : List Nat := idxRange k 9 with hB
  set s2 : R9State := B.foldl (stepIndex behav) s1 with hs2
  set s3 : R9State := stepIndex behav s2 (k + 9) with hs3
  set D : List Nat := idxRange (k + 9 + 1) (total - k - 10) with hD
  -- phase 1: [st, k) all succeed
  have hAgood : ∀ j ∈ A, (retryCheck behav (generateTicker9 j)).isSome = true := by
    intro j hj
    rw [hA, mem_idxRange] at hj
    exact hgood j (by omega) (by omega) (Or.inl (by omega))
  obtain ⟨a1, a2, a3, a4⟩ := runFold_success (s := init) (L := A) hcons hAgood
  rw [← hs1] at a1 a2 a3 a4
  have hs1rec : ∀ u, recordedIn s1 u →
      ∃ m, st ≤ m ∧ m < k ∧ u = generateTicker9 m := by
    intro u hu
    rcases a4 u hu with hh | ⟨j, hj, hu'⟩
    · exfalso
      rcases hh with h | h
      · rw [hact] at h
        exact absurd h (List.not_mem_nil u)
      · rw [hdel] at h
        exact absurd h (List.not_mem_nil u)
    · rw [hA, mem_idxRange] at hj
      exact ⟨j, by omega, by omega, hu'⟩
  -- phase 2: nine consecutive failures at k..k+8
  have hBfail : ∀ j ∈ B, retryCheck behav (generateTicker9 j) = none := by
    intro j hj
    rw [hB, mem_idxRange] at hj
    exact hfail j (by omega) (by omega)
  have hBnr : ∀ j ∈ B, ¬ recordedIn s1 (generateTicker9 j) := by
    intro j hj hrec
    rw [hB, mem_idxRange] at hj
    rcases hs1rec _ hrec with ⟨m, hm1, hm2, hu⟩
    exact absurd (generateTicker9_inj (by omega) (by omega) hu) (by omega)
  have hcB : s1.consecutiveErrors + B.length < 10 := by
    rw [a1, hB, idxRange_length]
    omega
  obtain ⟨b1, b2, b3, b4, b5⟩ := runFold_failBlock hBfail hBnr hcB
  rw [← hs2] at b1 b2 b3 b4 b5
  have b5' : s2.consecutiveErrors = 9 := by
    rw [b5, a1, hB, idxRange_length]
  have hrec2 : ∀ u, recordedIn s2 u ↔ recordedIn s1 u :=
    fun u => recordedIn_congr b1 b2 u
  -- the tenth failure at k+9 triggers the pause
  have hnr9 : ¬ recordedIn s2 (generateTicker9 (k + 9)) := by
    intro hrec
    rcases hs1rec _ ((hrec2 _).mp hrec) with ⟨m, hm1, hm2, hu⟩
    exact absurd (generateTicker9_inj (by omega) (by omega) hu) (by omega)
  have hw : ∀ m, (k + 9) - 10 ≤ m → m < k + 9 →
      recordedIn s2 (generateTicker9 m) ∨
        retryCheck behav (generateTicker9 m) = none := by
    intro m hm1 hm2
    by_cases hmk : m < k
    · left
      apply (hrec2 _).mpr
      exact a3 m (by rw [hA, mem_idxRange]; omega)
    · right
      exact hfail m (by omega) (by omega)
  have hcp : 10 ≤ s2.consecutiveErrors + 1 := by
    rw [b5']
  obtain ⟨p1, p2, p3, p4, p5⟩ := stepIndex_fail_pause hnr9
    (hfail (k + 9) (by omega) (by omega)) hcp hw
  rw [← hs3] at p1 p2 p3 p4 p5
  have hrec3 : ∀ u, recordedIn s3 u ↔ recordedIn s2 u :=
    fun u => recordedIn_congr p1 p2 u
  -- phase 3: [k+10, total) all succeed again
  have hDgood : ∀ j ∈ D, (retryCheck behav (generateTicker9 j)).isSome = true := by
    intro j hj
    rw [hD, mem_idxRange] at hj
    exact hgood j (by omega) (by omega) (Or.inr (by omega))
  obtain ⟨d1, d2, d3, d4⟩ := runFold_success (s := s3) (L := D) p4 hDgood
  refine ⟨?_, d1, ?_, ?_⟩
  · rw [d2, p5, b4, a2, hpse]
    rfl
  · intro i hik hik9
    have hnotrec : ¬ recordedIn (D.foldl (stepIndex behav) s3) (generateTicker9 i) := by
      intro hrec
      rcases d4 _ hrec with hh | ⟨j, hj, hu⟩
      · rcases hs1rec _ ((hrec2 _).mp ((hrec3 _).mp hh)) with ⟨m, hm1, hm2, hu⟩
        exact absurd (generateTicker9_inj (by omega) (by omega) hu) (by omega)
      · rw [hD, mem_idxRange] at hj
        exact absurd (generateTicker9_inj (by omega) (by omega) hu) (by omega)
    exact ⟨fun h => hnotrec (Or.inr h), fun h => hnotrec (Or.inl h)⟩
  · intro i hi9 hitot
    exact d3 i (by rw [hD, mem_idxRange]; omega)

/-- Witness for C5: ten consecutive transport failures at indices 1..10
of a 12-index run produce exactly one pause event, at index 10. -/
theorem claim_consecutive_error_escalation_witness :
    (run9 escalationBehav 0 12 (R9State.mk [] [] 0 0 [] [])).pauseEvents =
      [PauseEvent.mk 10 10 60000] :=
  (claim_consecutive_error_escalation escalationBehav 0 1 12
    (R9State.mk [] [] 0 0 [] []) rfl rfl rfl rfl (by decide) (by decide) (by decide)
    (by decide) (by intro i h1 h2; interval_cases i <;> decide)).1
